import Mathlib

/-!
Verification development for the Fast-EasiLogin token-lifecycle subsystem.

The definitions below are a shallow embedding of the Python source:
  - `shared/http_client.py` (per-host circuit breaker + retrying client),
  - `shared/storage.py` (`AsyncCache` two-tier cache, `invalidate_token_cache`),
  - `api/gateway/state.py` (`ttl_with_jitter`, inflight guard, `token_renew_job`),
  - `api/gateway/router.py` (`sso_login_user` index-triple creation),
  - `api/user_auth/auth_service.py` (`user_login`, `_is_token_invalid`),
  - `src/fast_easilogin/api/user_auth/auth_service.py` (rewritten `user_login`),
  - `src/fast_easilogin/api/gateway/router.py` (rewritten `sso_login_user`).

Timestamps and TTLs are modelled as rationals, random jitter draws as explicit
parameters, networking as explicit outcome traces, and the asyncio-interleaved
stateful code as explicit state passing.
-/

namespace FastEasiLogin

/-! ## Circuit breaker (shared/http_client.py, HttpClientManager) -/

/-- Modelled from the spec: `shared/constants.py` is absent from the source
tree; the spec fixes the breaker at 3 consecutive failures, and the same
literal `3` appears as `_FAIL_THRESHOLD` in `api/user_auth/auth_service.py`. -/
def FAIL_THRESHOLD : Nat := 3

/-- Modelled from the spec: `shared/constants.py` is absent from the source
tree; the spec fixes the breaker reset window at 10 seconds, and the same
literal `10.0` appears as `_RESET_TIMEOUT` in `api/user_auth/auth_service.py`. -/
def RESET_TIMEOUT : ℚ := 10

/-- Modelled from the spec: `shared/constants.py` is absent from the source
tree; a server-error status is one `>= 500`, matching the literal `500` in
`api/user_auth/auth_service.py`. -/
def HTTP_SERVER_ERROR : Nat := 500

/-- Per-host breaker record `{"fail": .., "opened_at": .., "open": .., "half": ..}`
from `HttpClientManager._breaker_state`. -/
structure BreakerState where
  fail : Nat
  opened_at : ℚ
  isOpen : Bool  -- the source key "open" ("open" is a Lean keyword)
  half : Bool
  deriving Repr, DecidableEq

/-- The lazily-created initial breaker state for a host. -/
def BreakerState.initial : BreakerState :=
  { fail := 0, opened_at := 0, isOpen := false, half := false }

/-- Model of `HttpClientManager._should_block`: returns whether the call must be
short-circuited, together with the (possibly half-open transitioned)
breaker state. `now` is the value of `time.time()` at the check. -/
def shouldBlock (now : ℚ) (st : BreakerState) : Bool × BreakerState :=
  if st.isOpen then
    if now - st.opened_at < RESET_TIMEOUT then
      (true, st)
    else
      (false, { st with isOpen := false, half := true })
  else
    (false, st)

/-- Model of `HttpClientManager._record_success`: resets the host state wholesale. -/
def recordSuccess : BreakerState := BreakerState.initial

/-- Model of `HttpClientManager._record_failure` at time `now`. -/
def recordFailure (now : ℚ) (st : BreakerState) : BreakerState :=
  let f := st.fail + 1
  if FAIL_THRESHOLD ≤ f then
    { fail := f, opened_at := now, isOpen := true, half := false }
  else
    { st with fail := f }

/-- Outcome of one underlying HTTP attempt: a transport-level response with a
status code, or a raised transport exception. -/
inductive AttemptOutcome where
  | resp (status : Nat)
  | exn
  deriving Repr, DecidableEq

/-- Result of `HttpClientManager.request_with_retry`: the `CircuitOpenError`
raise, a returned response, or the `RequestFailedError` raise after
exhausting the attempts. -/
inductive RWRResult where
  | circuitOpen
  | success (status : Nat)
  | requestFailed
  deriving Repr, DecidableEq

/-- The attempt loop of `HttpClientManager.request_with_retry`.
`outs i` is what the network does on attempt `i`, `times i` the value of
`time.time()` around attempt `i`.  Returns the result, the final breaker
state for the destination host, and how many network attempts were actually
performed (calls into the underlying HTTP client). -/
def rwrAux (outs : Nat → AttemptOutcome) (times : Nat → ℚ) :
    Nat → Nat → BreakerState → RWRResult × BreakerState × Nat
  | 0, _, st => (.requestFailed, st, 0)
  | fuel + 1, i, st =>
    let b := shouldBlock (times i) st
    if b.1 then
      (.circuitOpen, b.2, 0)
    else
      match outs i with
      | .resp s =>
        if HTTP_SERVER_ERROR ≤ s then
          let st2 := recordFailure (times i) b.2
          let r := rwrAux outs times fuel (i + 1) st2
          (r.1, r.2.1, r.2.2 + 1)
        else
          (.success s, recordSuccess, 1)
      | .exn =>
        let st2 := recordFailure (times i) b.2
        let r := rwrAux outs times fuel (i + 1) st2
        (r.1, r.2.1, r.2.2 + 1)

/-- Model of `HttpClientManager.request_with_retry` for a single destination host whose
breaker state is `st` (`max_attempts` defaults to 3 in the source). -/
def requestWithRetry (outs : Nat → AttemptOutcome) (times : Nat → ℚ)
    (maxAttempts : Nat) (st : BreakerState) : RWRResult × BreakerState × Nat :=
  rwrAux outs times maxAttempts 0 st

/-- A concrete open breaker used by the witnesses below. -/
def openBreaker : BreakerState :=
  { fail := 3, opened_at := 0, isOpen := true, half := false }

/-! ## Inflight de-duplication guard (api/gateway/state.py) -/

/-- The `_INFLIGHT_TOKENS` set.  The asyncio lock in the source makes each
guard operation atomic, so the sequential semantics below is exact. -/
abbrev InflightSet := List String

/-- Model of `try_mark_inflight`: inserts `key` unless present, returning whether it
was newly inserted together with the updated set. -/
def tryMarkInflight (s : InflightSet) (key : String) : Bool × InflightSet :=
  if key ∈ s then (false, s) else (true, key :: s)

/-- Model of `clear_inflight`, that is `set.discard`: the unconditional removal of `key`. -/
def clearInflight (s : InflightSet) (key : String) : InflightSet :=
  s.filter (fun k => k ≠ key)

/-! ## TTL jitter (api/gateway/state.py and shared/storage.py) -/

/-- Model of `ttl_with_jitter(base)` from `api/gateway/state.py` with the random
draw `j = random.uniform(0.8, 1.2)` made explicit: `max(5, int(base * j))`.
Python `int()` truncates toward zero; for the non-negative products used
here this is the floor. -/
def ttlWithJitter (base : ℚ) (j : ℚ) : ℤ :=
  max 5 ⌊base * j⌋

/-- Model of `AsyncCache._ttl(base)` from `shared/storage.py` with the random draw
made explicit: `b = float(base or 60.0); max(5.0, b * j)`.  Python `or`
replaces both `None` and `0` by the default 60. -/
def asyncCacheTtl (base : Option ℚ) (j : ℚ) : ℚ :=
  let b : ℚ := match base with
    | none => 60
    | some x => if x = 0 then 60 else x
  max 5 (b * j)

/-! ## Two-tier cache (shared/storage.py, AsyncCache)

Timestamps are absolute rationals.  A Python dict / diskcache store is an
association list with unique keys; `kvSet` overwrites, `kvDel` removes. -/

abbrev KVMap (α : Type) := List (String × α)

def kvGet {α : Type} (m : KVMap α) (k : String) : Option α :=
  (m.find? (fun p => p.1 == k)).map (fun p => p.2)

def kvSet {α : Type} (m : KVMap α) (k : String) (v : α) : KVMap α :=
  (k, v) :: m.filter (fun p => p.1 != k)

def kvDel {α : Type} (m : KVMap α) (k : String) : KVMap α :=
  m.filter (fun p => p.1 != k)

/-- The state of one `AsyncCache` over its diskcache backing store:
`mem` is `self._mem` (value and absolute mirror expiry), `miss` is
`self._miss` (absolute negative-cache expiry), `disk` the backing
`diskcache.Cache` (value and absolute expiry; every write in this code base
passes an explicit `expire`). -/
structure CacheState where
  mem : KVMap (String × ℚ)
  miss : KVMap ℚ
  disk : KVMap (String × ℚ)

/-- Model of `AsyncCache.get(key)` at time `now`; `jMiss` and `jMem` are the jitter
draws `_ttl` would consume for a fresh negative entry or a refreshed memory
mirror entry.  Python truthiness of the stored miss deadline (`if m and
m > now`) is `m ≠ 0 ∧ m > now`. -/
def cacheGet (st : CacheState) (key : String) (now : ℚ) (jMiss jMem : ℚ) :
    Option String × CacheState :=
  let missHit : Bool :=
    match kvGet st.miss key with
    | some m => decide (m ≠ 0) && decide (now < m)
    | none => false
  if missHit then (none, st)
  else
    let memHit : Option String :=
      match kvGet st.mem key with
      | some vp => if now < vp.2 then some vp.1 else none
      | none => none
    match memHit with
    | some v => (some v, st)
    | none =>
      match kvGet st.disk key with
      | some vp =>
        if now < vp.2 then
          (some vp.1,
            { st with mem := kvSet st.mem key (vp.1, now + asyncCacheTtl (some 60) jMem) })
        else
          (none, { st with miss := kvSet st.miss key (now + asyncCacheTtl (some 15) jMiss) })
      | none =>
        (none, { st with miss := kvSet st.miss key (now + asyncCacheTtl (some 15) jMiss) })

/-- Model of `AsyncCache.set(key, value, ex)` at time `now` with jitter draw `j`:
writes the memory mirror, drops any standing negative entry, and writes the
backing store with `expire=int(ttl)`. -/
def cacheSet (st : CacheState) (key value : String) (ex : Option ℤ) (now : ℚ)
    (j : ℚ) : CacheState :=
  let ttl := asyncCacheTtl (ex.map (fun z => (z : ℚ))) j
  { mem := kvSet st.mem key (value, now + ttl),
    miss := kvDel st.miss key,
    disk := kvSet st.disk key (value, now + (⌊ttl⌋ : ℚ)) }

/-- Model of `AsyncCache.delete(key)`: removes the key from all three tiers. -/
def cacheDelete (st : CacheState) (key : String) : CacheState :=
  { mem := kvDel st.mem key, miss := kvDel st.miss key, disk := kvDel st.disk key }

/-- Model of `cache_iter_prefix`: the backing-store keys with the prefix. -/
def prefixedKeys (st : CacheState) (pre : String) : List String :=
  (st.disk.map (fun p => p.1)).filter (fun k => pre.data.isPrefixOf k.data)

/-! ## The token index record (api/gateway/router.py, shared/storage.py) -/

/-- Rendering of `json.dumps` on the record with keys userid and uid, for the
index records written by `sso_login_user`; a `None` uid serializes as
`null`. -/
def jsonIdx (userid : String) (uid : Option String) : String :=
  "\x7b\"userid\": \"" ++ userid ++ "\", \"uid\": " ++
    (match uid with
     | some u => "\"" ++ u ++ "\""
     | none => "null") ++ "\x7d"

/-- Strips the expected literal prefix `pat` from `l`. -/
def stripPref : List Char → List Char → Option (List Char)
  | [], rest => some rest
  | _ :: _, [] => none
  | p :: ps, c :: cs => if c = p then stripPref ps cs else none

/-- Reads characters up to the next double quote. -/
def readQuoted : List Char → Option (String × List Char)
  | [] => none
  | c :: cs =>
    if c = '"' then some ("", cs)
    else
      match readQuoted cs with
      | some (s, rest) => some (String.mk (c :: s.data), rest)
      | none => none

/-- The combined effect of `json.loads` followed by `.get("userid")` and
`.get("uid")` on the records this code base writes (the `jsonIdx` image);
a string outside that image behaves like the caught `json.loads` failure:
`idx = {}`, whose `.get` calls return `None`. -/
def decodeIdx (s : String) : Option String × Option String :=
  match stripPref "\x7b\"userid\": \"".data s.data with
  | none => (none, none)
  | some r1 =>
    match readQuoted r1 with
    | none => (none, none)
    | some (u, r2) =>
      match stripPref ", \"uid\": ".data r2 with
      | none => (none, none)
      | some r3 =>
        match stripPref "null\x7d".data r3 with
        | some [] => (some u, none)
        | _ =>
          match stripPref ['"'] r3 with
          | none => (none, none)
          | some r4 =>
            match readQuoted r4 with
            | some (v, r5) => if r5 = ['\x7d'] then (some u, some v) else (none, none)
            | none => (none, none)

/-- Model of `invalidate_token_cache(token)` from shared/storage.py at time `now`
(`jm`/`jv` are the jitter draws of its initial `get`).  Deletes the three
index entries named by the index record of the token, then every `login:` and
`agg:` key of the recorded userid. -/
def invalidateTokenCache (st : CacheState) (token : String) (now jm jv : ℚ) :
    CacheState :=
  let g := cacheGet st ("token_index:" ++ token) now jm jv
  let st1 := g.2
  match g.1 with
  | some raw =>
    if raw = "" then
      -- empty bytes are falsy: only the unconditional index delete runs
      cacheDelete st1 ("token_index:" ++ token)
    else
      let idx := decodeIdx raw
      let useridRepr := match idx.1 with
        | some u => u
        | none => "None"  -- f-string rendering of Python None
      let st2 := cacheDelete st1 ("token_by_user:" ++ useridRepr)
      let st3 := match idx.2 with
        | some u => if u = "" then st2 else cacheDelete st2 ("token_by_uid:" ++ u)
        | none => st2
      let st4 := cacheDelete st3 ("token_index:" ++ token)
      match idx.1 with
      | some u =>
        if u = "" then st4
        else
          let st5 := (prefixedKeys st4 ("login:" ++ u ++ ":")).foldl
            (fun acc k => cacheDelete acc k) st4
          (prefixedKeys st5 ("agg:" ++ u ++ ":")).foldl
            (fun acc k => cacheDelete acc k) st5
      | none => st4
  | none => cacheDelete st1 ("token_index:" ++ token)

/-! ## Renewal sweep (api/gateway/state.py, token_renew_job) -/

/-- Model of `k.split` at the first colon, keeping the remainder, with the
`IndexError` for a colon-free key caught
and mapped to the empty token by the surrounding `except`. -/
def afterColon : List Char → Option (List Char)
  | [] => none
  | c :: cs => if c = ':' then some cs else afterColon cs

def tokenOf (k : String) : String :=
  match afterColon k.data with
  | some cs => String.mk cs
  | none => ""

/-- Outcome of `check_token_status(tok)` for one token: the invalid flag it
returns, or an exception it raises.  (`check_token_status` is imported into
the gateway from the auth service; only this interface matters to the
sweep.) -/
inductive ProbeResult where
  | ok (invalid : Bool)
  | exn
  deriving DecidableEq

/-- The jitter draws one sweep iteration may consume. -/
structure SweepJit where
  jGetMiss : ℚ
  jGetMem : ℚ
  jUserW : ℚ
  jUserS : ℚ
  jUidW : ℚ
  jUidS : ℚ
  jIdxW : ℚ
  jIdxS : ℚ
  jInvMiss : ℚ
  jInvMem : ℚ

/-- One iteration of the per-token body of `token_renew_job` for index key
`k` at time `now` with nominal token TTL `tokenTtl` (the configured
`TOKEN_TTL`).  Returns the cache state, the inflight set and the
`(updated, invalid, errors)` counter increments. -/
def processToken (st : CacheState) (infl : InflightSet) (k : String)
    (probe : ProbeResult) (tokenTtl : ℚ) (now : ℚ) (jit : SweepJit) :
    CacheState × InflightSet × Nat × Nat × Nat :=
  let tok := tokenOf k
  if tok = "" then (st, infl, 0, 0, 0)
  else
    let m := tryMarkInflight infl tok
    if m.1 = false then (st, infl, 0, 0, 0)
    else
      let infl1 := m.2
      match probe with
      | .exn => (st, clearInflight infl1 tok, 0, 0, 1)
      | .ok invalid =>
        if invalid then
          (invalidateTokenCache st tok now jit.jInvMiss jit.jInvMem,
            clearInflight infl1 tok, 0, 1, 0)
        else
          let g := cacheGet st ("token_index:" ++ tok) now jit.jGetMiss jit.jGetMem
          let st1 := g.2
          match g.1 with
          | none => (st1, clearInflight infl1 tok, 0, 0, 0)
          | some raw =>
            if raw = "" then (st1, clearInflight infl1 tok, 0, 0, 0)
            else
              let idx := decodeIdx raw
              let st2 := match idx.1 with
                | some u =>
                  if u = "" then st1
                  else
                    cacheSet st1 ("token_by_user:" ++ u) tok
                      (some (ttlWithJitter tokenTtl jit.jUserW)) now jit.jUserS
                | none => st1
              let st3 := match idx.2 with
                | some u =>
                  if u = "" then st2
                  else
                    cacheSet st2 ("token_by_uid:" ++ u) tok
                      (some (ttlWithJitter tokenTtl jit.jUidW)) now jit.jUidS
                | none => st2
              let st4 := cacheSet st3 ("token_index:" ++ tok) raw
                (some (ttlWithJitter tokenTtl jit.jIdxW)) now jit.jIdxS
              (st4, clearInflight infl1 tok, 1, 0, 0)

/-- One full sweep of `token_renew_job` over the enumerated index keys,
threading cache state and inflight set; `jits n` are the draws of the
`n`-th iteration. -/
def sweepTokens (probe : String → ProbeResult) (tokenTtl now : ℚ) :
    (Nat → SweepJit) → List String → CacheState × InflightSet →
      CacheState × InflightSet
  | _, [], acc => acc
  | jits, k :: ks, acc =>
    let r := processToken acc.1 acc.2 k (probe (tokenOf k)) tokenTtl now (jits 0)
    sweepTokens probe tokenTtl now (fun n => jits (n + 1)) ks (r.1, r.2.1)

/-- A concrete one-token cache used by the C4 analysis: the `token_index`
entry for token `"T"` stands in both tiers with absolute expiry 80 (e.g.
written at time 0 with the in-range draws `1.2` for `ttl_with_jitter`,
giving `72`, and `10/9` for the inner `_ttl`, giving `80`). -/
def sweepCexState : CacheState :=
  ⟨[("token_index:T", (jsonIdx "u" (some "U"), 80))], [],
    [("token_index:T", (jsonIdx "u" (some "U"), 80))]⟩

/-- Sweep-iteration draws all equal to 1 (inside the uniform `[0.8, 1.2]`). -/
def sweepCexJit : SweepJit := ⟨1, 1, 1, 1, 1, 1, 1, 1, 1, 1⟩

/-! ## Token validity check (api/user_auth/auth_service.py) -/

/-- Constant `TOKEN_INVALID_CODE` from api/user_auth/auth_service.py. -/
def TOKEN_INVALID_CODE : Int := 40105

/-- Parse of `r.json()` on the exchange response: `none` is a body that
fails to parse (mapped to `{}` by `_exchange_token`), `some c` a parsed
body whose `statusCode` field is `c` (`none` inside for an absent field). -/
abbrev ExchangeBody := Option (Option Int)

/-- Model of `_is_token_invalid(token)`: the exchange call runs
`_request_with_retry` outcome is `rwr`; a `CircuitOpen`/`RequestFailed`
raise propagates out of `_exchange_token` and is caught by the enclosing
`except`, yielding `False`; otherwise the `statusCode` of the body is compared
with `TOKEN_INVALID_CODE` (the cache lookup in the invalid branch only
logs and cannot change the returned flag). -/
def isTokenInvalidModel (rwr : RWRResult) (body : ExchangeBody) : Bool :=
  match rwr with
  | .circuitOpen => false
  | .requestFailed => false
  | .success _ =>
    let code : Option Int := match body with
      | none => none
      | some c => c
    code == some TOKEN_INVALID_CODE

/-! ## user_login, both generations -/

/-- Upstream behavior of the login POST as observed by `user_login`: a raise
out of `_request_with_retry` (circuit open or retries exhausted), a response
whose body fails to parse, or a parsed body carrying an optional token.
`probeInvalid` is what the proactive `_is_token_invalid` check on the
returned token would report (consulted only by the legacy version). -/
inductive LoginUpstream where
  | netFail
  | parseFail
  | resp (token : Option String) (probeInvalid : Bool)
  deriving DecidableEq

/-- Result of `user_login`: the token of the normalized record, or the raised
`HTTPException` status code. -/
inductive LoginOutcome where
  | ok (token : String)
  | err (status : Nat)
  deriving DecidableEq

/-- Python truthiness of the extracted token (`data.get(...).get("token")`):
absent or empty is falsy. -/
def tokenTruthy : Option String → Bool
  | none => false
  | some t => t != ""

/-- Model of `token.endswith` for the placeholder marker. -/
def endsWithOffline (t : String) : Bool := "-offline".data.isSuffixOf t.data

/-- Legacy `user_login` (api/user_auth/auth_service.py): `cached` is the
parsed non-expired `login:` cache entry, returned without any upstream
call when present; otherwise the single `except Exception` around the whole
body maps every failure - network, parse, missing token, `-offline`
placeholder, proactively-invalid token - to HTTP 401. -/
def userLoginLegacy (cached : Option String) (up : LoginUpstream) : LoginOutcome :=
  match cached with
  | some tok => .ok tok
  | none =>
    match up with
    | .netFail => .err 401
    | .parseFail => .err 401
    | .resp none _ => .err 401
    | .resp (some t) probe =>
      if t = "" || endsWithOffline t || probe then .err 401 else .ok t

/-- Rewritten `user_login` (src/fast_easilogin/api/user_auth/auth_service.py):
`RequestFailedError`, `CircuitOpenError` and any other exception from the
request/parse phase surface as HTTP 504; a missing or empty token surfaces
as HTTP 401 (with the policy-gated auto-disable side effect); any non-empty
token is returned as success - no placeholder or proactive-invalidity check
is performed. -/
def userLoginNew (up : LoginUpstream) : LoginOutcome :=
  match up with
  | .netFail => .err 504
  | .parseFail => .err 504
  | .resp none _ => .err 401
  | .resp (some t) _ => if t = "" then .err 401 else .ok t

/-! ## SSO login routes -/

/-- The fields of a stored user record the rewritten route consults. -/
structure RouteUserRecord where
  user_id : String
  active : Bool
  phone : String
  password : String

/-- Route outcome of `sso_login_user`. -/
inductive SsoLoginResult where
  | ok (token : String)
  | err (status : Nat)
  deriving DecidableEq

/-- The gate of the rewritten `sso_login_user`
(src/fast_easilogin/api/gateway/router.py): a missing record or one whose
`active` flag is false yields 404 before `user_login` is called.  The
second component records whether the upstream login was attempted. -/
def ssoLoginUserNew (record : Option RouteUserRecord) (up : LoginUpstream) :
    SsoLoginResult × Bool :=
  match record with
  | none => (.err 404, false)
  | some r =>
    if r.active = false then (.err 404, false)
    else
      match userLoginNew up with
      | .ok t => (.ok t, true)
      | .err s => (.err s, true)

/-- The index-triple creation in `sso_login_user` (api/gateway/router.py)
immediately after a successful `user_login` returned `token` and `uid` for
`userid`: three cache writes at time `now`, each with its own
`ttl_with_jitter` draw and its own inner `AsyncCache._ttl` draw
(`jw 0`..`jw 5`).  `uid` is guarded by Python truthiness. -/
def ssoStoreTriple (st : CacheState) (userid token : String) (uid : Option String)
    (tokenTtl : ℚ) (now : ℚ) (jw : Fin 6 → ℚ) : CacheState :=
  let st1 := cacheSet st ("token_by_user:" ++ userid) token
    (some (ttlWithJitter tokenTtl (jw 0))) now (jw 1)
  let st2 := match uid with
    | some u =>
      if u = "" then st1
      else
        cacheSet st1 ("token_by_uid:" ++ u) token
          (some (ttlWithJitter tokenTtl (jw 2))) now (jw 3)
    | none => st1
  cacheSet st2 ("token_index:" ++ token) (jsonIdx userid uid)
    (some (ttlWithJitter tokenTtl (jw 4))) now (jw 5)

end FastEasiLogin

namespace FastEasiLogin

/-! ### Association-list map lemmas -/

theorem kvGet_kvSet_self {α : Type} (m : KVMap α) (k : String) (v : α) :
    kvGet (kvSet m k v) k = some v := by
  simp [kvGet, kvSet, List.find?]

theorem kvGet_cons_ne {α : Type} (a : String × α) (t : KVMap α) (k' : String)
    (h : (a.1 == k') = false) : kvGet (a :: t) k' = kvGet t k' := by
  simp [kvGet, List.find?, h]

theorem kvGet_filter_ne {α : Type} (m : KVMap α) {k k' : String} (h : k' ≠ k) :
    kvGet (m.filter (fun p => p.1 != k)) k' = kvGet m k' := by
  induction m with
  | nil => rfl
  | cons a t ih =>
    by_cases ha : a.1 = k
    · have hdrop : (a.1 != k) = false := by simp [ha]
      have hak' : a.1 ≠ k' := by rw [ha]; exact Ne.symm h
      have hnk : (a.1 == k') = false := beq_false_of_ne hak'
      rw [List.filter_cons, hdrop, kvGet_cons_ne a t k' hnk]
      simp only [Bool.false_eq_true, if_false]
      exact ih
    · have hkeep : (a.1 != k) = true := bne_iff_ne.mpr ha
      rw [List.filter_cons, hkeep]
      by_cases hk' : a.1 = k'
      · have hbk : (a.1 == k') = true := beq_iff_eq.mpr hk'
        simp [kvGet, List.find?, hbk]
      · have hnk' : (a.1 == k') = false := beq_false_of_ne hk'
        rw [if_pos rfl, kvGet_cons_ne a _ k' hnk', kvGet_cons_ne a t k' hnk']
        exact ih

theorem kvGet_kvSet_ne {α : Type} (m : KVMap α) {k k' : String} (v : α)
    (h : k' ≠ k) : kvGet (kvSet m k v) k' = kvGet m k' := by
  have hnk : (k == k') = false := beq_false_of_ne (Ne.symm h)
  simp only [kvGet, kvSet, List.find?, hnk]
  exact kvGet_filter_ne m h

theorem kvGet_kvDel_self {α : Type} (m : KVMap α) (k : String) :
    kvGet (kvDel m k) k = none := by
  induction m with
  | nil => rfl
  | cons a t ih =>
    by_cases ha : a.1 = k
    · have hdrop : (a.1 != k) = false := by simp [ha]
      rw [kvDel, List.filter_cons, hdrop]
      simp only [Bool.false_eq_true, if_false]
      exact ih
    · have hkeep : (a.1 != k) = true := bne_iff_ne.mpr ha
      have hnk : (a.1 == k) = false := beq_false_of_ne ha
      rw [kvDel, List.filter_cons, hkeep, if_pos rfl, kvGet_cons_ne a _ k hnk]
      exact ih

theorem kvGet_kvDel_ne {α : Type} (m : KVMap α) {k k' : String} (h : k' ≠ k) :
    kvGet (kvDel m k) k' = kvGet m k' :=
  kvGet_filter_ne m h

/-- The jittered TTL is bounded below by the 5-second floor, whatever the
draw. -/
theorem asyncCacheTtl_pos (b : Option ℚ) (j : ℚ) : 0 < asyncCacheTtl b j :=
  lt_of_lt_of_le (by norm_num) (le_max_left 5 _)

/-- A `get` that finds no blocking negative entry and a live memory-mirror
entry returns it and leaves the cache untouched. -/
theorem cacheGet_memHit (st : CacheState) (key v : String) (e : ℚ)
    (now jm jv : ℚ) (hmiss : kvGet st.miss key = none)
    (hmem : kvGet st.mem key = some (v, e)) (he : now < e) :
    cacheGet st key now jm jv = (some v, st) := by
  simp [cacheGet, hmiss, hmem, he]

/-- C6: `set(key, value, ttl)` immediately followed by `get(key)` with no
time passing returns `value` when `ttl > 0`, from any prior cache state -
in particular from one holding a standing negative-cache entry for `key`,
because `set` removes the negative entry together with its write. -/
theorem cache_set_then_get_roundtrip (st : CacheState) (key value : String)
    (ex : ℤ) (now j jm jv : ℚ) (_hex : 0 < ex) :
    cacheGet (cacheSet st key value (some ex) now j) key now jm jv =
      (some value, cacheSet st key value (some ex) now j) := by
  apply cacheGet_memHit
  · exact kvGet_kvDel_self st.miss key
  · exact kvGet_kvSet_self st.mem key _
  · have := asyncCacheTtl_pos (((some ex).map (fun z => (z : ℚ)))) j
    linarith

/-- Witness for C6: a standing negative entry for the key, a `set` with
`ttl = 10 > 0`, then an immediate `get` returning the value. -/
theorem cache_set_then_get_roundtrip_witness :
    (0 : ℤ) < 10 ∧
      (cacheGet
        (cacheSet ⟨[], [("k", 100)], []⟩ "k" "v" (some 10) 1 1) "k" 1 1 1).1 =
        some "v" :=
  ⟨by norm_num,
    by rw [cache_set_then_get_roundtrip ⟨[], [("k", 100)], []⟩ "k" "v" 10 1 1 1 1
      (by norm_num)]⟩

theorem cacheSet_mem (st : CacheState) (k v : String) (ex : Option ℤ)
    (now j : ℚ) :
    (cacheSet st k v ex now j).mem =
      kvSet st.mem k (v, now + asyncCacheTtl (ex.map (fun z => (z : ℚ))) j) := rfl

theorem cacheSet_miss (st : CacheState) (k v : String) (ex : Option ℤ)
    (now j : ℚ) : (cacheSet st k v ex now j).miss = kvDel st.miss k := rfl

theorem cacheSet_disk (st : CacheState) (k v : String) (ex : Option ℤ)
    (now j : ℚ) :
    (cacheSet st k v ex now j).disk =
      kvSet st.disk k
        (v, now + (⌊asyncCacheTtl (ex.map (fun z => (z : ℚ))) j⌋ : ℚ)) := rfl

/-- C9: immediately after a successful SSO login for `"u1"` where the
upstream returned token `"abc123"` and uid `"U999"`, the three index
entries are simultaneously readable in the same logical operation: both
token pointers yield `"abc123"` and the stored index record decodes back to
`("u1", "U999")`. -/
theorem sso_login_creates_index_triple
    (st : CacheState) (T now : ℚ) (jw : Fin 6 → ℚ) (jm jv : ℚ) :
    (cacheGet (ssoStoreTriple st "u1" "abc123" (some "U999") T now jw)
        "token_by_user:u1" now jm jv).1 = some "abc123" ∧
    (cacheGet (ssoStoreTriple st "u1" "abc123" (some "U999") T now jw)
        "token_by_uid:U999" now jm jv).1 = some "abc123" ∧
    (cacheGet (ssoStoreTriple st "u1" "abc123" (some "U999") T now jw)
        "token_index:abc123" now jm jv).1 = some (jsonIdx "u1" (some "U999")) ∧
    decodeIdx (jsonIdx "u1" (some "U999")) = (some "u1", some "U999") := by
  have hexp : ssoStoreTriple st "u1" "abc123" (some "U999") T now jw =
      cacheSet
        (cacheSet
          (cacheSet st "token_by_user:u1" "abc123"
            (some (ttlWithJitter T (jw 0))) now (jw 1))
          "token_by_uid:U999" "abc123" (some (ttlWithJitter T (jw 2))) now (jw 3))
        "token_index:abc123" (jsonIdx "u1" (some "U999"))
        (some (ttlWithJitter T (jw 4))) now (jw 5) := rfl
  rw [hexp]
  refine ⟨?_, ?_, ?_, by decide⟩
  · rw [cacheGet_memHit _ _ "abc123"
      (now + asyncCacheTtl (some ((ttlWithJitter T (jw 0) : ℤ) : ℚ)) (jw 1)) now jm jv
      ?_ ?_ ?_]
    · rw [cacheSet_miss, kvGet_kvDel_ne _ (by decide), cacheSet_miss,
        kvGet_kvDel_ne _ (by decide), cacheSet_miss, kvGet_kvDel_self]
    · rw [cacheSet_mem, kvGet_kvSet_ne _ _ (by decide), cacheSet_mem,
        kvGet_kvSet_ne _ _ (by decide), cacheSet_mem, kvGet_kvSet_self]
      rfl
    · linarith [asyncCacheTtl_pos (some ((ttlWithJitter T (jw 0) : ℤ) : ℚ)) (jw 1)]
  · rw [cacheGet_memHit _ _ "abc123"
      (now + asyncCacheTtl (some ((ttlWithJitter T (jw 2) : ℤ) : ℚ)) (jw 3)) now jm jv
      ?_ ?_ ?_]
    · rw [cacheSet_miss, kvGet_kvDel_ne _ (by decide), cacheSet_miss,
        kvGet_kvDel_self]
    · rw [cacheSet_mem, kvGet_kvSet_ne _ _ (by decide), cacheSet_mem,
        kvGet_kvSet_self]
      rfl
    · linarith [asyncCacheTtl_pos (some ((ttlWithJitter T (jw 2) : ℤ) : ℚ)) (jw 3)]
  · rw [cacheGet_memHit _ _ (jsonIdx "u1" (some "U999"))
      (now + asyncCacheTtl (some ((ttlWithJitter T (jw 4) : ℤ) : ℚ)) (jw 5)) now jm jv
      ?_ ?_ ?_]
    · rw [cacheSet_miss, kvGet_kvDel_self]
    · rw [cacheSet_mem, kvGet_kvSet_self]
      rfl
    · linarith [asyncCacheTtl_pos (some ((ttlWithJitter T (jw 4) : ℤ) : ℚ)) (jw 5)]

/-- C1: while the breaker for the destination host is open and inside the
reset window, `request_with_retry` raises `CircuitOpen` at once: no network
attempt is performed and the breaker state is left untouched. -/
theorem circuit_open_blocks_without_network_call
    (outs : Nat → AttemptOutcome) (times : Nat → ℚ) (maxAttempts : Nat)
    (st : BreakerState)
    (hopen : st.isOpen = true)
    (hwin : times 0 - st.opened_at < RESET_TIMEOUT)
    (hmax : 0 < maxAttempts) :
    requestWithRetry outs times maxAttempts st = (.circuitOpen, st, 0) := by
  obtain ⟨n, rfl⟩ := Nat.exists_eq_succ_of_ne_zero (Nat.pos_iff_ne_zero.mp hmax)
  simp only [requestWithRetry, rwrAux, shouldBlock, hopen, if_pos, hwin, if_true]

/-- C3: once the reset window of an open breaker has elapsed, `_should_block`
lets the next attempt through (open cleared, half-open set); in
`request_with_retry` that attempt is actually performed (one network call),
a success fully closes the breaker with the failure counter reset to 0, and
a failure (exception or server-error status) re-opens it with `opened_at`
freshly set to the attempt time.  The hypothesis `FAIL_THRESHOLD ≤ st.fail`
is the breaker invariant: the open flag is only ever set together with a
failure count at or above the threshold, and nothing lowers the count while
open. -/
theorem breaker_half_open_lifecycle
    (outs : Nat → AttemptOutcome) (times : Nat → ℚ) (st : BreakerState) (now : ℚ)
    (hopen : st.isOpen = true)
    (hfail : FAIL_THRESHOLD ≤ st.fail)
    (helapsed : RESET_TIMEOUT ≤ now - st.opened_at)
    (htime : times 0 = now) :
    shouldBlock now st = (false, { st with isOpen := false, half := true }) ∧
    (∀ s, outs 0 = .resp s → s < HTTP_SERVER_ERROR →
      requestWithRetry outs times 1 st = (.success s, BreakerState.initial, 1)) ∧
    (outs 0 = .exn →
      requestWithRetry outs times 1 st =
        (.requestFailed,
          { fail := st.fail + 1, opened_at := now, isOpen := true, half := false }, 1)) ∧
    (∀ s, outs 0 = .resp s → HTTP_SERVER_ERROR ≤ s →
      requestWithRetry outs times 1 st =
        (.requestFailed,
          { fail := st.fail + 1, opened_at := now, isOpen := true, half := false }, 1)) := by
  have hnb : ¬ (now - st.opened_at < RESET_TIMEOUT) := not_lt.mpr helapsed
  have hsb : shouldBlock now st = (false, { st with isOpen := false, half := true }) := by
    simp [shouldBlock, hopen, hnb]
  have hreopen :
      recordFailure now { st with isOpen := false, half := true } =
        { fail := st.fail + 1, opened_at := now, isOpen := true, half := false } := by
    simp only [recordFailure, if_pos (le_trans hfail (Nat.le_succ _))]
  refine ⟨hsb, ?_, ?_, ?_⟩
  · intro s hs hlt
    simp [requestWithRetry, rwrAux, htime, hsb, hs, not_le.mpr hlt, recordSuccess,
      BreakerState.initial]
  · intro hs
    simp [requestWithRetry, rwrAux, htime, hsb, hs, hreopen]
  · intro s hs hge
    simp [requestWithRetry, rwrAux, htime, hsb, hs, hge, hreopen]

/-- Witness for C3: a breaker opened at time 0 and probed at time 10 (the reset
window exactly elapsed) against a failing trace. -/
theorem breaker_half_open_lifecycle_witness :
    (⟨3, 0, true, false⟩ : BreakerState).isOpen = true ∧
      requestWithRetry (fun _ => .exn) (fun _ => 10) 1 ⟨3, 0, true, false⟩ =
        (.requestFailed, ⟨4, 10, true, false⟩, 1) :=
  ⟨rfl,
    ((breaker_half_open_lifecycle (fun _ => .exn) (fun _ => 10)
      ⟨3, 0, true, false⟩ 10 rfl (by norm_num [FAIL_THRESHOLD])
      (by norm_num [RESET_TIMEOUT]) rfl).2.2.1) rfl⟩

/-- C7: `try_mark_inflight` inserts and returns `true` exactly when the key is
absent and leaves the set unchanged returning `false` otherwise; of two
consecutive marks for a fresh key, exactly the first succeeds; after
`clear_inflight` a mark succeeds again. -/
theorem inflight_guard_semantics (s : InflightSet) (key : String) :
    (key ∉ s → tryMarkInflight s key = (true, key :: s)) ∧
    (key ∈ s → tryMarkInflight s key = (false, s)) ∧
    (key ∉ s →
      (tryMarkInflight s key).1 = true ∧
      (tryMarkInflight (tryMarkInflight s key).2 key).1 = false) ∧
    (tryMarkInflight (clearInflight s key) key).1 = true := by
  refine ⟨fun h => by simp [tryMarkInflight, h], fun h => by simp [tryMarkInflight, h],
    fun h => ⟨by simp [tryMarkInflight, h], ?_⟩, ?_⟩
  · simp [tryMarkInflight, h]
  · have : key ∉ clearInflight s key := by
      simp [clearInflight, List.mem_filter]
    simp [tryMarkInflight, this]

/-- Witness for C7 at a concrete set and key. -/
theorem inflight_guard_semantics_witness :
    ("tok" ∉ (["other"] : InflightSet)) ∧
      (tryMarkInflight ["other"] "tok").1 = true ∧
      (tryMarkInflight (tryMarkInflight ["other"] "tok").2 "tok").1 = false :=
  ⟨by decide,
    ((inflight_guard_semantics ["other"] "tok").2.2.1 (by decide)).1,
    ((inflight_guard_semantics ["other"] "tok").2.2.1 (by decide)).2⟩

/-- Counterexample for C8 as stated: with nominal TTL `B = 1 > 0` and jitter
draw `j = 1 ∈ [0.8, 1.2]`, both jitter functions yield 5, which lies above
the claimed upper bound `1.2 * B = 1.2`. -/
theorem ttl_jitter_band_counterexample :
    (0 : ℚ) < 1 ∧ (8 / 10 : ℚ) ≤ 1 ∧ (1 : ℚ) ≤ 12 / 10 ∧
      asyncCacheTtl (some 1) 1 = 5 ∧ ttlWithJitter 1 1 = 5 ∧
      ¬ (asyncCacheTtl (some 1) 1 ≤ 12 / 10 * 1) := by
  norm_num [asyncCacheTtl, ttlWithJitter]

/-- C8 amended: the effective TTL lies in `[max(5, 0.8*B), max(5, 1.2*B)]`:
the 5-second floor that protects the lower end also lifts the upper end of
the band whenever `1.2*B < 5`.  For `ttl_with_jitter`, which truncates to an
integer, the lower edge is `max(5, floor(0.8*B))`. -/
theorem ttl_jitter_band_amended (B j : ℚ) (hB : 0 < B)
    (hj1 : 8 / 10 ≤ j) (hj2 : j ≤ 12 / 10) :
    max 5 (8 / 10 * B) ≤ asyncCacheTtl (some B) j ∧
    asyncCacheTtl (some B) j ≤ max 5 (12 / 10 * B) ∧
    max 5 ⌊(8 / 10 : ℚ) * B⌋ ≤ ttlWithJitter B j ∧
    (ttlWithJitter B j : ℚ) ≤ max 5 (12 / 10 * B) := by
  have hlo : (8 / 10 : ℚ) * B ≤ B * j := by nlinarith
  have hhi : B * j ≤ 12 / 10 * B := by nlinarith
  have hval : asyncCacheTtl (some B) j = max 5 (B * j) := by
    simp [asyncCacheTtl, hB.ne']
  refine ⟨?_, ?_, ?_, ?_⟩
  · rw [hval]; exact max_le_max le_rfl hlo
  · rw [hval]; exact max_le_max le_rfl hhi
  · exact max_le_max le_rfl (Int.floor_le_floor hlo)
  · have h1 : ((max 5 ⌊B * j⌋ : ℤ) : ℚ) = max 5 (⌊B * j⌋ : ℚ) := by
      push_cast [Int.cast_max]; norm_num
    rw [ttlWithJitter, h1]
    exact max_le_max le_rfl ((Int.floor_le _).trans hhi)

/-- Witness for the amended C8 at `B = 10`, `j = 1`. -/
theorem ttl_jitter_band_amended_witness :
    (0 : ℚ) < 10 ∧ (8 / 10 : ℚ) ≤ 1 ∧ (1 : ℚ) ≤ 12 / 10 ∧
      max 5 (8 / 10 * 10) ≤ asyncCacheTtl (some 10) 1 ∧
      asyncCacheTtl (some 10) 1 ≤ max 5 (12 / 10 * 10) :=
  ⟨by norm_num, by norm_num, by norm_num,
    (ttl_jitter_band_amended 10 1 (by norm_num) (by norm_num) (by norm_num)).1,
    (ttl_jitter_band_amended 10 1 (by norm_num) (by norm_num) (by norm_num)).2.1⟩

/-- Witness for C1 at a concrete open breaker and concrete trace. -/
theorem circuit_open_blocks_without_network_call_witness :
    openBreaker.isOpen = true ∧
      (5 : ℚ) - openBreaker.opened_at < RESET_TIMEOUT ∧
      0 < 3 ∧
      requestWithRetry (fun _ => .exn) (fun _ => 5) 3 openBreaker =
        (.circuitOpen, openBreaker, 0) :=
  ⟨rfl, by norm_num [RESET_TIMEOUT, openBreaker], by norm_num,
    circuit_open_blocks_without_network_call (fun _ => .exn) (fun _ => 5) 3
      openBreaker rfl (by norm_num [RESET_TIMEOUT, openBreaker]) (by norm_num)⟩

end FastEasiLogin

namespace FastEasiLogin

/-- C5: the validity check reports `invalid = true` exactly when the exchange
request returned a response whose parsed body carries
`statusCode = TOKEN_INVALID_CODE` (40105); every raised exception (circuit
open, retries exhausted) and every other body - unparseable included -
yields `invalid = false`: fail open, never closed. -/
theorem token_introspection_fail_open (rwr : RWRResult) (body : ExchangeBody) :
    isTokenInvalidModel rwr body = true ↔
      (∃ s, rwr = .success s) ∧ body = some (some TOKEN_INVALID_CODE) := by
  cases rwr with
  | circuitOpen => simp [isTokenInvalidModel]
  | requestFailed => simp [isTokenInvalidModel]
  | success s =>
    cases body with
    | none => simp [isTokenInvalidModel]
    | some c =>
      cases c with
      | none => simp [isTokenInvalidModel]
      | some v => simp [isTokenInvalidModel]

/-- Witness for C5: a circuit-open exchange is never reported invalid, while
a response carrying 40105 is. -/
theorem token_introspection_fail_open_witness :
    isTokenInvalidModel .circuitOpen (some (some TOKEN_INVALID_CODE)) = false ∧
      isTokenInvalidModel (.success 200) (some (some TOKEN_INVALID_CODE)) = true :=
  ⟨by
    by_contra h
    have h2 := (token_introspection_fail_open .circuitOpen
      (some (some TOKEN_INVALID_CODE))).mp (by simpa using h)
    obtain ⟨⟨s, hs⟩, -⟩ := h2
    exact RWRResult.noConfusion hs,
   (token_introspection_fail_open (.success 200)
      (some (some TOKEN_INVALID_CODE))).mpr ⟨⟨200, rfl⟩, rfl⟩⟩

/-- Counterexample for C2 as stated: in the legacy `user_login`
(api/user_auth/auth_service.py, the module whose breaker the login path
uses) a network failure after exhausted retries or an open circuit surfaces
as HTTP 401, not as the claimed distinguishing 504. -/
theorem user_login_network_error_counterexample :
    userLoginLegacy none .netFail = .err 401 ∧
      userLoginLegacy none .netFail ≠ .err 504 := by
  constructor <;> decide

/-- C2 amended: the rewritten `user_login` distinguishes the two failure
classes - 504 exactly when the upstream call itself fails (network raise or
unparseable response), 401 exactly when the response carries no usable
(non-empty) token - but does not check the `-offline` placeholder or probe
validity (such tokens are returned as success); the legacy `user_login`
surfaces every failure, network failures included, as 401, and succeeds
exactly on a usable, non-placeholder, not-proactively-invalid token. -/
theorem user_login_error_classes_amended :
    (∀ up, userLoginNew up = .err 504 ↔ (up = .netFail ∨ up = .parseFail)) ∧
    (∀ tok probeInv,
      userLoginNew (.resp tok probeInv) = .err 401 ↔ tokenTruthy tok = false) ∧
    userLoginNew (.resp (some "t-offline") true) = .ok "t-offline" ∧
    (∀ up, userLoginLegacy none up ≠ .err 504) ∧
    (∀ t probeInv, t ≠ "" → endsWithOffline t = false → probeInv = false →
      userLoginLegacy none (.resp (some t) probeInv) = .ok t) := by
  refine ⟨?_, ?_, by decide, ?_, ?_⟩
  · intro up
    cases up with
    | netFail => simp [userLoginNew]
    | parseFail => simp [userLoginNew]
    | resp tok probeInv =>
      cases tok with
      | none => simp [userLoginNew]
      | some t =>
        by_cases ht : t = "" <;> simp [userLoginNew, ht]
  · intro tok probeInv
    cases tok with
    | none => simp [userLoginNew, tokenTruthy]
    | some t =>
      by_cases ht : t = "" <;> simp [userLoginNew, tokenTruthy, ht]
  · intro up
    cases up with
    | netFail => simp [userLoginLegacy]
    | parseFail => simp [userLoginLegacy]
    | resp tok probeInv =>
      cases tok with
      | none => simp [userLoginLegacy]
      | some t =>
        by_cases ht : t = "" <;>
          by_cases ho : endsWithOffline t <;>
            cases probeInv <;> simp [userLoginLegacy, ht, ho]
  · intro t probeInv ht ho hp
    subst hp
    simp [userLoginLegacy, ht, ho]

/-- Witness for the amended C2 at concrete inputs. -/
theorem user_login_error_classes_amended_witness :
    (("tok7" : String) ≠ "") ∧ endsWithOffline "tok7" = false ∧
      userLoginLegacy none (.resp (some "tok7") false) = .ok "tok7" ∧
      (userLoginNew .netFail = .err 504 ↔
        (LoginUpstream.netFail = .netFail ∨ LoginUpstream.netFail = .parseFail)) :=
  ⟨by decide, by decide,
    user_login_error_classes_amended.2.2.2.2 "tok7" false (by decide) (by decide) rfl,
    user_login_error_classes_amended.1 .netFail⟩

/-- C10: a stored record whose `active` flag is false makes the rewritten SSO
login route fail 404 without attempting any upstream login, exactly as a
missing record does - the two states are indistinguishable at the route. -/
theorem inactive_user_login_404_no_upstream
    (r : RouteUserRecord) (up upMissing : LoginUpstream) (h : r.active = false) :
    ssoLoginUserNew (some r) up = (.err 404, false) ∧
    ssoLoginUserNew none upMissing = (.err 404, false) ∧
    ssoLoginUserNew (some r) up = ssoLoginUserNew none upMissing := by
  refine ⟨?_, rfl, ?_⟩ <;> simp [ssoLoginUserNew, h]

/-- Witness for C10 at a concrete disabled record. -/
theorem inactive_user_login_404_no_upstream_witness :
    (RouteUserRecord.mk "u7" false "" "pw").active = false ∧
      ssoLoginUserNew (some (RouteUserRecord.mk "u7" false "" "pw")) .netFail =
        (.err 404, false) :=
  ⟨rfl, (inactive_user_login_404_no_upstream
    (RouteUserRecord.mk "u7" false "" "pw") .netFail .netFail rfl).1⟩

end FastEasiLogin

namespace FastEasiLogin

/-! ### Supporting lemmas for the renewal sweep -/

theorem cacheDelete_mem (st : CacheState) (k : String) :
    (cacheDelete st k).mem = kvDel st.mem k := rfl

theorem cacheDelete_miss (st : CacheState) (k : String) :
    (cacheDelete st k).miss = kvDel st.miss k := rfl

theorem cacheDelete_disk (st : CacheState) (k : String) :
    (cacheDelete st k).disk = kvDel st.disk k := rfl

/-- Two appended strings differ when their prefixes differ at some index. -/
theorem append_ne_of_data_ne (p q a b : String) (i : Nat)
    (hip : i < p.data.length) (hiq : i < q.data.length)
    (hne : p.data[i]? ≠ q.data[i]?) : p ++ a ≠ q ++ b := by
  intro h
  apply hne
  have hdata : p.data ++ a.data = q.data ++ b.data := by
    have h2 := congrArg String.data h
    simpa [String.data_append] using h2
  calc p.data[i]? = (p.data ++ a.data)[i]? := (List.getElem?_append_left hip).symm
    _ = (q.data ++ b.data)[i]? := by rw [hdata]
    _ = q.data[i]? := List.getElem?_append_left hiq

theorem key_user_ne_index (u t : String) :
    "token_by_user:" ++ u ≠ "token_index:" ++ t :=
  append_ne_of_data_ne _ _ _ _ 6 (by decide) (by decide) (by decide)

theorem key_uid_ne_index (u t : String) :
    "token_by_uid:" ++ u ≠ "token_index:" ++ t :=
  append_ne_of_data_ne _ _ _ _ 6 (by decide) (by decide) (by decide)

theorem key_user_ne_uid (u v : String) :
    "token_by_user:" ++ u ≠ "token_by_uid:" ++ v :=
  append_ne_of_data_ne _ _ _ _ 10 (by decide) (by decide) (by decide)

theorem tokenOf_index_key (tok : String) :
    tokenOf ("token_index:" ++ tok) = tok := by
  simp [tokenOf, afterColon, String.data_append]

theorem clearInflight_cons (infl : InflightSet) (tok : String) (h : tok ∉ infl) :
    clearInflight (tok :: infl) tok = infl := by
  unfold clearInflight
  rw [List.filter_cons, if_neg (by simp)]
  apply List.filter_eq_self.mpr
  intro a ha
  simp only [ne_eq, decide_eq_true_eq]
  rintro rfl
  exact h ha

theorem foldl_cacheDelete_mem_none (ks : List String) (st : CacheState)
    (k : String) (h : kvGet st.mem k = none) :
    kvGet ((ks.foldl (fun acc x => cacheDelete acc x) st).mem) k = none := by
  induction ks generalizing st with
  | nil => exact h
  | cons a t ih =>
    refine ih _ ?_
    rw [cacheDelete_mem]
    by_cases hk : k = a
    · subst hk; exact kvGet_kvDel_self _ _
    · rw [kvGet_kvDel_ne _ hk]; exact h

theorem foldl_cacheDelete_disk_none (ks : List String) (st : CacheState)
    (k : String) (h : kvGet st.disk k = none) :
    kvGet ((ks.foldl (fun acc x => cacheDelete acc x) st).disk) k = none := by
  induction ks generalizing st with
  | nil => exact h
  | cons a t ih =>
    refine ih _ ?_
    rw [cacheDelete_disk]
    by_cases hk : k = a
    · subst hk; exact kvGet_kvDel_self _ _
    · rw [kvGet_kvDel_ne _ hk]; exact h

end FastEasiLogin

namespace FastEasiLogin

/-- C4 amended: for a token whose index key is enumerated, whose guard is
free, and whose index record is live and decodes to a userid/uid pair: a
valid probe rewrites all three index entries with a freshly jittered TTL
measured from the sweep time (each new expiry is strictly later than the
sweep time, though not necessarily later than the previous expiry);
an invalid probe evicts all three entries from both cache tiers; the
inflight guard is released on every exit path (the returned set equals the
initial one, also when the probe raises); and a probe exception leaves the
cache untouched, is counted, and does not abort the sweep of the remaining
tokens. -/
theorem token_renew_sweep_per_token
    (st : CacheState) (infl : InflightSet) (tok raw userid uid : String)
    (e T now : ℚ) (jit : SweepJit)
    (htok : tok ≠ "") (hinfl : tok ∉ infl)
    (hmiss : kvGet st.miss ("token_index:" ++ tok) = none)
    (hmem : kvGet st.mem ("token_index:" ++ tok) = some (raw, e))
    (hlive : now < e) (hraw : raw ≠ "")
    (hdec : decodeIdx raw = (some userid, some uid))
    (huser : userid ≠ "") (huid : uid ≠ "") :
    ((processToken st infl ("token_index:" ++ tok) (.ok false) T now jit).2.1 = infl ∧
      kvGet (processToken st infl ("token_index:" ++ tok) (.ok false) T now jit).1.mem
          ("token_by_user:" ++ userid) =
        some (tok, now + asyncCacheTtl (some ((ttlWithJitter T jit.jUserW : ℤ) : ℚ)) jit.jUserS) ∧
      kvGet (processToken st infl ("token_index:" ++ tok) (.ok false) T now jit).1.mem
          ("token_by_uid:" ++ uid) =
        some (tok, now + asyncCacheTtl (some ((ttlWithJitter T jit.jUidW : ℤ) : ℚ)) jit.jUidS) ∧
      kvGet (processToken st infl ("token_index:" ++ tok) (.ok false) T now jit).1.mem
          ("token_index:" ++ tok) =
        some (raw, now + asyncCacheTtl (some ((ttlWithJitter T jit.jIdxW : ℤ) : ℚ)) jit.jIdxS) ∧
      now < now + asyncCacheTtl (some ((ttlWithJitter T jit.jUserW : ℤ) : ℚ)) jit.jUserS ∧
      now < now + asyncCacheTtl (some ((ttlWithJitter T jit.jUidW : ℤ) : ℚ)) jit.jUidS ∧
      now < now + asyncCacheTtl (some ((ttlWithJitter T jit.jIdxW : ℤ) : ℚ)) jit.jIdxS) ∧
    ((processToken st infl ("token_index:" ++ tok) (.ok true) T now jit).2.1 = infl ∧
      kvGet (processToken st infl ("token_index:" ++ tok) (.ok true) T now jit).1.mem
        ("token_by_user:" ++ userid) = none ∧
      kvGet (processToken st infl ("token_index:" ++ tok) (.ok true) T now jit).1.disk
        ("token_by_user:" ++ userid) = none ∧
      kvGet (processToken st infl ("token_index:" ++ tok) (.ok true) T now jit).1.mem
        ("token_by_uid:" ++ uid) = none ∧
      kvGet (processToken st infl ("token_index:" ++ tok) (.ok true) T now jit).1.disk
        ("token_by_uid:" ++ uid) = none ∧
      kvGet (processToken st infl ("token_index:" ++ tok) (.ok true) T now jit).1.mem
        ("token_index:" ++ tok) = none ∧
      kvGet (processToken st infl ("token_index:" ++ tok) (.ok true) T now jit).1.disk
        ("token_index:" ++ tok) = none) ∧
    processToken st infl ("token_index:" ++ tok) .exn T now jit = (st, infl, 0, 0, 1) ∧
    (∀ (probe : String → ProbeResult) (ks : List String) (jits : Nat → SweepJit),
      probe tok = .exn → jits 0 = jit →
      sweepTokens probe T now jits (("token_index:" ++ tok) :: ks) (st, infl) =
        sweepTokens probe T now (fun n => jits (n + 1)) ks (st, infl)) := by
  have hk := tokenOf_index_key tok
  have hmark : tryMarkInflight infl tok = (true, tok :: infl) := by
    simp [tryMarkInflight, hinfl]
  have hclear := clearInflight_cons infl tok hinfl
  have hget : cacheGet st ("token_index:" ++ tok) now jit.jGetMiss jit.jGetMem =
      (some raw, st) := cacheGet_memHit st _ raw e now _ _ hmiss hmem hlive
  have hget2 : cacheGet st ("token_index:" ++ tok) now jit.jInvMiss jit.jInvMem =
      (some raw, st) := cacheGet_memHit st _ raw e now _ _ hmiss hmem hlive
  have hvalid : processToken st infl ("token_index:" ++ tok) (.ok false) T now jit =
      (cacheSet
        (cacheSet
          (cacheSet st ("token_by_user:" ++ userid) tok
            (some (ttlWithJitter T jit.jUserW)) now jit.jUserS)
          ("token_by_uid:" ++ uid) tok
          (some (ttlWithJitter T jit.jUidW)) now jit.jUidS)
        ("token_index:" ++ tok) raw
        (some (ttlWithJitter T jit.jIdxW)) now jit.jIdxS, infl, 1, 0, 0) := by
    simp [processToken, hk, htok, hmark, hget, hraw, hdec, huser, huid, hclear]
  have hinvalid : processToken st infl ("token_index:" ++ tok) (.ok true) T now jit =
      (invalidateTokenCache st tok now jit.jInvMiss jit.jInvMem, infl, 0, 1, 0) := by
    simp [processToken, hk, htok, hmark, hclear]
  have hst4 :
      invalidateTokenCache st tok now jit.jInvMiss jit.jInvMem =
        ((prefixedKeys
            ((prefixedKeys
                (cacheDelete
                  (cacheDelete (cacheDelete st ("token_by_user:" ++ userid))
                    ("token_by_uid:" ++ uid))
                  ("token_index:" ++ tok))
                ("login:" ++ userid ++ ":")).foldl (fun acc k => cacheDelete acc k)
              (cacheDelete
                (cacheDelete (cacheDelete st ("token_by_user:" ++ userid))
                  ("token_by_uid:" ++ uid))
                ("token_index:" ++ tok)))
            ("agg:" ++ userid ++ ":")).foldl (fun acc k => cacheDelete acc k)
          ((prefixedKeys
              (cacheDelete
                (cacheDelete (cacheDelete st ("token_by_user:" ++ userid))
                  ("token_by_uid:" ++ uid))
                ("token_index:" ++ tok))
              ("login:" ++ userid ++ ":")).foldl (fun acc k => cacheDelete acc k)
            (cacheDelete
              (cacheDelete (cacheDelete st ("token_by_user:" ++ userid))
                ("token_by_uid:" ++ uid))
              ("token_index:" ++ tok)))) := by
    simp [invalidateTokenCache, hget2, hraw, hdec, huser, huid]
  have hexn : processToken st infl ("token_index:" ++ tok) .exn T now jit =
      (st, infl, 0, 0, 1) := by
    simp [processToken, hk, htok, hmark, hclear]
  refine ⟨?_, ?_, hexn, ?_⟩
  · rw [hvalid]
    refine ⟨rfl, ?_, ?_, ?_, ?_, ?_, ?_⟩
    · rw [cacheSet_mem, kvGet_kvSet_ne _ _ (key_user_ne_index userid tok),
        cacheSet_mem, kvGet_kvSet_ne _ _ (key_user_ne_uid userid uid),
        cacheSet_mem, kvGet_kvSet_self]
      rfl
    · rw [cacheSet_mem, kvGet_kvSet_ne _ _ (key_uid_ne_index uid tok),
        cacheSet_mem, kvGet_kvSet_self]
      rfl
    · rw [cacheSet_mem, kvGet_kvSet_self]
      rfl
    · linarith [asyncCacheTtl_pos (some ((ttlWithJitter T jit.jUserW : ℤ) : ℚ)) jit.jUserS]
    · linarith [asyncCacheTtl_pos (some ((ttlWithJitter T jit.jUidW : ℤ) : ℚ)) jit.jUidS]
    · linarith [asyncCacheTtl_pos (some ((ttlWithJitter T jit.jIdxW : ℤ) : ℚ)) jit.jIdxS]
  · rw [hinvalid]
    refine ⟨rfl, ?_, ?_, ?_, ?_, ?_, ?_⟩ <;> rw [hst4]
    · apply foldl_cacheDelete_mem_none
      apply foldl_cacheDelete_mem_none
      rw [cacheDelete_mem, kvGet_kvDel_ne _ (key_user_ne_index userid tok),
        cacheDelete_mem, kvGet_kvDel_ne _ (key_user_ne_uid userid uid),
        cacheDelete_mem, kvGet_kvDel_self]
    · apply foldl_cacheDelete_disk_none
      apply foldl_cacheDelete_disk_none
      rw [cacheDelete_disk, kvGet_kvDel_ne _ (key_user_ne_index userid tok),
        cacheDelete_disk, kvGet_kvDel_ne _ (key_user_ne_uid userid uid),
        cacheDelete_disk, kvGet_kvDel_self]
    · apply foldl_cacheDelete_mem_none
      apply foldl_cacheDelete_mem_none
      rw [cacheDelete_mem, kvGet_kvDel_ne _ (key_uid_ne_index uid tok),
        cacheDelete_mem, kvGet_kvDel_self]
    · apply foldl_cacheDelete_disk_none
      apply foldl_cacheDelete_disk_none
      rw [cacheDelete_disk, kvGet_kvDel_ne _ (key_uid_ne_index uid tok),
        cacheDelete_disk, kvGet_kvDel_self]
    · apply foldl_cacheDelete_mem_none
      apply foldl_cacheDelete_mem_none
      rw [cacheDelete_mem, kvGet_kvDel_self]
    · apply foldl_cacheDelete_disk_none
      apply foldl_cacheDelete_disk_none
      rw [cacheDelete_disk, kvGet_kvDel_self]
  · intro probe ks jits hprobe hjit
    show sweepTokens probe T now jits (("token_index:" ++ tok) :: ks) (st, infl) = _
    rw [sweepTokens, hk, hprobe, hjit]
    rw [hexn]

end FastEasiLogin

namespace FastEasiLogin

/-- Counterexample for C4 as stated: the rewrite does not always produce a
*later* expiry.  The standing `token_index` entry of `sweepCexState`
expires at 80; the sweep at time 1 with draws of 1 rewrites it with
expiry `1 + max(5, 60) = 61 < 80`. -/
theorem token_renew_refresh_not_later_expiry :
    kvGet (processToken sweepCexState [] "token_index:T" (.ok false) 60 1
        sweepCexJit).1.mem "token_index:T" =
      some (jsonIdx "u" (some "U"), 61) ∧ (61 : ℚ) < 80 := by
  have hk : tokenOf "token_index:T" = "T" := by decide
  have hmark : tryMarkInflight ([] : InflightSet) "T" = (true, ["T"]) := by decide
  have hclear : clearInflight ["T"] "T" = [] := by decide
  have hdec : decodeIdx (jsonIdx "u" (some "U")) = (some "u", some "U") := by decide
  have hraw : jsonIdx "u" (some "U") ≠ "" := by decide
  have hget : cacheGet sweepCexState "token_index:T" 1 1 1 =
      (some (jsonIdx "u" (some "U")), sweepCexState) :=
    cacheGet_memHit _ _ _ 80 1 1 1 rfl (by decide) (by norm_num)
  have hvalid : processToken sweepCexState [] "token_index:T" (.ok false) 60 1
      sweepCexJit =
      (cacheSet
        (cacheSet
          (cacheSet sweepCexState ("token_by_user:" ++ "u") "T"
            (some (ttlWithJitter 60 1)) 1 1)
          ("token_by_uid:" ++ "U") "T" (some (ttlWithJitter 60 1)) 1 1)
        ("token_index:" ++ "T") (jsonIdx "u" (some "U"))
        (some (ttlWithJitter 60 1)) 1 1, [], 1, 0, 0) := by
    simp [processToken, sweepCexJit, hk, hmark, hget, hraw, hdec, hclear]
  refine ⟨?_, by norm_num⟩
  rw [hvalid, cacheSet_mem]
  have hkey : ("token_index:T" : String) = "token_index:" ++ "T" := rfl
  rw [hkey, kvGet_kvSet_self]
  have httl : asyncCacheTtl ((some (ttlWithJitter 60 1)).map (fun z => (z : ℚ))) 1 = 60 := by
    have h1 : ttlWithJitter 60 1 = 60 := by
      norm_num [ttlWithJitter]
    rw [h1]
    norm_num [asyncCacheTtl]
  rw [httl]
  norm_num

/-- Witness for the amended C4 at a concrete one-entry index. -/
theorem token_renew_sweep_per_token_witness :
    (("TT" : String) ≠ "") ∧
    decodeIdx (jsonIdx "uu" (some "UU")) = (some "uu", some "UU") ∧
    processToken ⟨[("token_index:TT", (jsonIdx "uu" (some "UU"), 100))], [], []⟩ []
        ("token_index:" ++ "TT") .exn 60 1 ⟨1, 1, 1, 1, 1, 1, 1, 1, 1, 1⟩ =
      (⟨[("token_index:TT", (jsonIdx "uu" (some "UU"), 100))], [], []⟩, [], 0, 0, 1) :=
  ⟨by decide, by decide,
    (token_renew_sweep_per_token
      ⟨[("token_index:TT", (jsonIdx "uu" (some "UU"), 100))], [], []⟩
      [] "TT" (jsonIdx "uu" (some "UU")) "uu" "UU"
      100 60 1 ⟨1, 1, 1, 1, 1, 1, 1, 1, 1, 1⟩ (by decide) (by decide) rfl (by decide)
      (by norm_num) (by decide) (by decide) (by decide) (by decide)).2.2.1⟩

end FastEasiLogin
